import Mathlib

/-!
Verification of the finova repository's symbol-resolution and
table-normalization pipeline (`src/powerbi.py`, `src/modules/data_collector.py`).

The Python code is shallowly embedded: strings are Lean `String`s manipulated
through their `List Char` data, Python dicts become insertion-ordered
association lists with overwrite-on-assignment semantics, and the two remote
lookup calls (Yahoo Finance search, Screener.in search) are passed in as
oracle functions `String → String` returning `""` on failure, exactly as the
Python wrappers `search_yahoo_symbol` / `search_screener_symbol` do (both
catch every exception and return `""`).

Character-class primitives (`\d`, `\s`, `.lower()`, `.upper()`) are modelled
at ASCII fidelity, which covers every string the source code and the claims
manipulate.
-/

/-- Python `str.strip()` whitespace (ASCII part): space, tab, LF, CR, VT, FF. -/
def isPyWhitespace (c : Char) : Bool :=
  c == ' ' || c == '\t' || c == '\n' || c == '\r' || c == '\x0b' || c == '\x0c'

/-- Python `str.strip()`: drop leading and trailing whitespace. -/
def pyStrip (s : String) : String :=
  String.mk (((s.data.dropWhile isPyWhitespace).reverse.dropWhile isPyWhitespace).reverse)

/-- Python `str.lower()` (ASCII letters). -/
def strLower (s : String) : String := String.mk (s.data.map Char.toLower)

/-- Python `str.upper()` (ASCII letters). -/
def strUpper (s : String) : String := String.mk (s.data.map Char.toUpper)

/-- `leadsWith p l` is true iff `p` is an initial segment of `l`. -/
def leadsWith : List Char → List Char → Bool
  | [], _ => true
  | _ :: _, [] => false
  | a :: as, b :: bs => a == b && leadsWith as bs

/-- Python's `needle in hay` substring test. -/
def occursIn : List Char → List Char → Bool
  | p, [] => p.isEmpty
  | p, a :: rest => leadsWith p (a :: rest) || occursIn p rest

/-- `strContains hay needle`: Python `needle in hay`. -/
def strContains (hay needle : String) : Bool := occursIn needle.data hay.data

/-- Remove the initial segment `old` from a list, if present. -/
def stripPre? : List Char → List Char → Option (List Char)
  | [], l => some l
  | _ :: _, [] => none
  | a :: as, b :: bs => if a == b then stripPre? as bs else none

/-- Worker for Python `str.replace(old, new)`: scan left to right, replacing
non-overlapping occurrences.  `fuel` (instantiated with the input length)
makes the recursion structural; it never runs out, because each step consumes
at least one input character. -/
def replaceLoop (old new : List Char) : Nat → List Char → List Char
  | _, [] => []
  | 0, l => l
  | fuel + 1, a :: rest =>
    match stripPre? old (a :: rest) with
    | some rem =>
        if old.isEmpty then a :: replaceLoop old new fuel rest
        else new ++ replaceLoop old new fuel rem
    | none => a :: replaceLoop old new fuel rest

/-- Python `s.replace(old, new)` (for the nonempty `old`s the source uses). -/
def strReplace (s old new : String) : String :=
  String.mk (replaceLoop old.data new.data s.data.length s.data)

/-- Worker for Python `re.sub(r"\s+", " ", s)`: each maximal whitespace run
becomes a single space.  `prevWs` records whether the previous character was
whitespace. -/
def collapseWsAux (prevWs : Bool) : List Char → List Char
  | [] => []
  | a :: rest =>
    if isPyWhitespace a then
      if prevWs then collapseWsAux true rest
      else ' ' :: collapseWsAux true rest
    else a :: collapseWsAux false rest

/-- Python `re.sub(r"\s+", " ", s)`. -/
def collapseWs (l : List Char) : List Char := collapseWsAux false l

/-- Try to read the regex `20\d{2}` starting at character `a` followed by `l`. -/
def yearAt (a : Char) : List Char → Option String
  | '0' :: c :: d :: _ =>
      if a == '2' && c.isDigit && d.isDigit then some (String.mk ['2', '0', c, d])
      else none
  | _ => none

/-- Leftmost match of `re.search(r"(20\d{2})", ·)`. -/
def findYear : List Char → Option String
  | [] => none
  | a :: rest =>
    match yearAt a rest with
    | some y => some y
    | none => findYear rest

/-- `re.search(r"(20\d{2})", h)` returning the matched year string. -/
def extractYear (h : String) : Option String := findYear h.data

/-- Characters kept by `re.sub(r"[^\d.-]", "", ·)`. -/
def keepNumChar (c : Char) : Bool := c.isDigit || c == '.' || c == '-'

/-- The garbled rupee-sign literal that appears (double-encoded) in the source:
the three characters U+201A, U+00C7, U+03C0. -/
def rupeeGarbled : String := "‚Çπ"

/-- `clean_numeric_value` from `src/powerbi.py`:
sentinel strings map to `""`; otherwise strip, delete `,` `%` rupee `$`, and
drop every character that is not a digit, `.` or `-`. -/
def clean_numeric_value (value : String) : String :=
  if value = "" ∨ pyStrip value = "" ∨ pyStrip value = "-" ∨
      pyStrip value = "NA" ∨ pyStrip value = "N/A" then ""
  else
    String.mk
      ((strReplace (strReplace (strReplace (strReplace (pyStrip value)
          "," "") "%" "") rupeeGarbled "") "$" "").data.filter keepNumChar)

/-- `clean_metric_name` from `src/powerbi.py`: strip, delete every `+` `*` `#`,
collapse whitespace runs to single spaces. -/
def clean_metric_name (metric : String) : String :=
  if metric = "" then ""
  else
    String.mk (collapseWs
      (strReplace (strReplace (strReplace (pyStrip metric) "+" "") "*" "") "#" "").data)

/-- Keyword bucket 1 of `infer_unit`: monetary aggregates. -/
def monetaryKw : List String :=
  ["sales", "revenue", "profit", "income", "expense", "asset", "liability",
   "equity", "cash", "borrowing", "investment", "market cap", "reserves",
   "fixed assets", "current assets", "total assets", "total liabilities"]

/-- Keyword bucket 2 of `infer_unit`: per-share figures. -/
def perShareKw : List String := ["eps", "dividend", "book value", "face value"]

/-- Keyword bucket 3 of `infer_unit`: percentage-like metrics. -/
def percentKw : List String :=
  ["margin", "roe", "roce", "roa", "ratio", "yield", "coverage", "payout",
   "growth", "tax %", "opm %"]

/-- Keyword bucket 4 of `infer_unit`: named financial ratios. -/
def ratioKw : List String :=
  ["debt to equity", "current ratio", "quick ratio", "p/e", "p/b",
   "ev/ebitda", "interest coverage"]

/-- Keyword bucket 5 of `infer_unit`: duration metrics. -/
def daysKw : List String :=
  ["days", "turnover", "cycle", "debtor days", "inventory days",
   "working capital days"]

/-- Keyword bucket 6 of `infer_unit`: price metrics. -/
def priceKw : List String := ["price", "current price"]

/-- `infer_unit` from `src/powerbi.py`: chained `if any(word in metric_lower
for word in [...])` tests over the cleaned, lower-cased metric name, first
match wins; the `statement` argument is accepted but never used. -/
def infer_unit (metric_name statement : String) : String :=
  let ml := strLower (clean_metric_name metric_name)
  if monetaryKw.any (fun w => strContains ml w) then "INR Crores"
  else if perShareKw.any (fun w => strContains ml w) then "INR"
  else if percentKw.any (fun w => strContains ml w) then "Percentage"
  else if ratioKw.any (fun w => strContains ml w) then "Ratio"
  else if daysKw.any (fun w => strContains ml w) then "Days"
  else if priceKw.any (fun w => strContains ml w) then "INR"
  else "Number"

/-- The keyword buckets of `infer_unit` in their source order, paired with the
unit each one yields (the final default is "Number"). -/
def unitBuckets : List (List String × String) :=
  [(monetaryKw, "INR Crores"), (perShareKw, "INR"), (percentKw, "Percentage"),
   (ratioKw, "Ratio"), (daysKw, "Days"), (priceKw, "INR")]

/-- Spec-side reformulation of `infer_unit` for the refinement comparison:
the unit of the lowest-index bucket whose keyword set matches the cleaned,
lower-cased metric name, defaulting to "Number". -/
def inferUnitByBuckets (metric_name : String) : String :=
  let ml := strLower (clean_metric_name metric_name)
  match unitBuckets.find? (fun b => b.1.any (fun w => strContains ml w)) with
  | some b => b.2
  | none => "Number"

/-- Python-dict assignment `d[k] = v` on an insertion-ordered association
list: overwrite in place if the key exists, else append. -/
def alSet {α : Type} : List (String × α) → String → α → List (String × α)
  | [], k, v => [(k, v)]
  | (k0, v0) :: rest, k, v =>
      if k0 = k then (k0, v) :: rest else (k0, v0) :: alSet rest k v

/-- Python-dict lookup `d.get(k)` on an association list. -/
def alGet {α : Type} : List (String × α) → String → Option α
  | [], _ => none
  | (k0, v0) :: rest, k => if k0 = k then some v0 else alGet rest k

/-- `Config.MAX_YEARS` from `src/powerbi.py`. -/
def MAX_YEARS : Nat := 6

/-- `Config.SOURCE` from `src/powerbi.py`. -/
def SOURCE : String := "Screener.in"

/-- Python `l[-n:]`: the last `n` elements. -/
def takeLast {α : Type} (n : Nat) (l : List α) : List α := l.drop (l.length - n)

/-- The cell recorded for the `i`-th retained year of a row with data cells
`vals`: `clean_numeric_value(values[i]) if i < len(values) else ""`. -/
def entryVal (i : Nat) (vals : List String) : String :=
  if i < vals.length then clean_numeric_value (vals.getD i "") else ""

/-- The inner loop of `parse_financial_table`: `for i, year in
enumerate(years): data[metric][year] = ...`, with `i` starting at `j` and the
dict accumulated in `d`. -/
def buildInnerFrom (vals : List String) : Nat → List (String × String) →
    List String → List (String × String)
  | _, d, [] => d
  | j, d, y :: rest => buildInnerFrom vals (j + 1) (alSet d y (entryVal j vals)) rest

/-- The year-to-value dict built for one row of a financial table. -/
def buildInner (years vals : List String) : List (String × String) :=
  buildInnerFrom vals 0 [] years

/-- The year tokens extracted from the non-first header cells:
`[re.search(r"(20\d{2})", h).group(1) for h in headers[1:] if re.search(...)]`. -/
def extractedYears (headers : List String) : List String :=
  (headers.drop 1).filterMap extractYear

/-- The retained year axis: `years[-Config.MAX_YEARS:]`. -/
def retainedYears (headers : List String) : List String :=
  takeLast MAX_YEARS (extractedYears headers)

/-- `parse_financial_table` from `src/powerbi.py`, applied to the extracted
header texts and row cell texts (the BeautifulSoup text extraction is the
external collaborator).  Rows with fewer than two cells are skipped; the
first cell is the metric, the rest are values. -/
def parse_financial_table (headers : List String) (body : List (List String)) :
    List (String × List (String × String)) :=
  body.foldl
    (fun data cols =>
      match cols with
      | c0 :: c1 :: rest => alSet data c0 (buildInner (retainedYears headers) (c1 :: rest))
      | _ => data)
    []

/-- A row of the normalized long-format output of `create_normalized_rows`. -/
structure NormalizedRecord where
  Company : String
  Symbol : String
  Statement : String
  Section : String
  Metric : String
  Year : Nat
  Value : String
  Unit : String
  Source : String
deriving DecidableEq

/-- The hardcoded year list of `create_normalized_rows`. -/
def all_years : List String := ["2019", "2020", "2021", "2022", "2023", "2024", "2025"]

/-- Python `int(·)` on the digit-only strings of `all_years`. -/
def natOfDigits (l : List Char) : Nat :=
  l.foldl (fun n c => n * 10 + (c.toNat - 48)) 0

/-- `create_normalized_rows` from `src/powerbi.py`: flatten the nested
statement → section → metric → year structure, skipping years whose value is
the empty string. -/
def create_normalized_rows (company_name symbol : String)
    (tables : List (String × List (String × List (String × List (String × String))))) :
    List NormalizedRecord :=
  tables.flatMap (fun st =>
    st.2.flatMap (fun sec =>
      sec.2.flatMap (fun met =>
        all_years.filterMap (fun year =>
          let value := (alGet met.2 year).getD ""
          if value ≠ "" then
            some ⟨company_name, symbol, st.1, sec.1, clean_metric_name met.1,
                  natOfDigits year.data, value, infer_unit met.1 st.1, SOURCE⟩
          else none))))

/-- The `company_symbols` dict of `src/modules/data_collector.py`. -/
def company_symbols : List (String × String) :=
  [("TCS", "TCS"), ("INFOSYS", "INFY"), ("RELIANCE", "RELIANCE"),
   ("HDFC BANK", "HDFCBANK"), ("AMAZON", "AMZN"), ("GOOGLE", "GOOGL"),
   ("MICROSOFT", "MSFT")]

/-- The second step of `find_best_symbol`: `for name, symbol in
company_symbols.items(): if user_input == symbol.upper(): return symbol`. -/
def symbolMatch (u : String) : List (String × String) → Option String
  | [] => none
  | (_, sym) :: rest => if u = strUpper sym then some sym else symbolMatch u rest

/-- `find_best_symbol` from `src/modules/data_collector.py`.  The two
`difflib.get_close_matches(..., n=1, cutoff=0.6)` calls are oracles
`closeToKeys` / `closeToVals`; difflib guarantees a returned match is an
element of the candidate list, so the key lookup in the third branch always
succeeds — `getD u` only covers oracles that break that contract. -/
def find_best_symbol (closeToKeys closeToVals : String → List String → Option String)
    (user_input : String) : String :=
  let u := strUpper user_input
  match alGet company_symbols u with
  | some sym => sym
  | none =>
    match symbolMatch u company_symbols with
    | some sym => sym
    | none =>
      match closeToKeys u (company_symbols.map Prod.fst) with
      | some k => (alGet company_symbols k).getD u
      | none =>
        match closeToVals u (company_symbols.map Prod.snd) with
        | some v => v
        | none => u

/-- The `common_patterns` dict inside `resolve_nse_symbol`. -/
def common_patterns : List (String × String) :=
  [("ambuja", "AMBUJACEM"), ("tcs", "TCS"), ("tata consultancy services", "TCS"),
   ("infosys", "INFY"), ("reliance", "RELIANCE"), ("hdfc bank", "HDFCBANK"),
   ("icici bank", "ICICIBANK"), ("wipro", "WIPRO"), ("hcl tech", "HCLTECH"),
   ("tech mahindra", "TECHM"), ("axis bank", "AXISBANK"), ("kotak bank", "KOTAKBANK")]

/-- `generate_symbol_fallback` from `src/powerbi.py`:
`re.sub(r"[^A-Za-z]", "", name).upper()[:7]`. -/
def generate_symbol_fallback (name : String) : String :=
  String.mk (((name.data.filter Char.isAlpha).map Char.toUpper).take 7)

/-- Step 3 of `resolve_nse_symbol`: per-token retry of the two lookups. -/
def tokenSearch (yahoo screener : String → String) : List String → Option String
  | [] => none
  | t :: rest =>
    if yahoo t ≠ "" then some (yahoo t)
    else if screener t ≠ "" then some (screener t)
    else tokenSearch yahoo screener rest

/-- Worker for Python `str.split()` (no argument): split on whitespace runs,
dropping empty pieces; `cur` holds the current word reversed. -/
def pySplitAux (cur : List Char) : List Char → List String
  | [] => if cur.isEmpty then [] else [String.mk cur.reverse]
  | a :: rest =>
    if isPyWhitespace a then
      if cur.isEmpty then pySplitAux [] rest
      else String.mk cur.reverse :: pySplitAux [] rest
    else pySplitAux (a :: cur) rest

/-- Python `str.split()` with no argument. -/
def pySplit (s : String) : List String := pySplitAux [] s.data

/-- `resolve_nse_symbol` from `src/powerbi.py`.  The remote lookups
`search_yahoo_symbol` / `search_screener_symbol` are oracles returning `""`
when they find nothing (they catch all exceptions internally); the `raise
ValueError` on blank input is the `Except.error` branch. -/
def resolve_nse_symbol (yahoo screener : String → String)
    (company_name : String) : Except String String :=
  if company_name = "" ∨ pyStrip company_name = "" then
    Except.error "Company name cannot be empty"
  else
    let name := strLower (pyStrip company_name)
    match alGet common_patterns name with
    | some sym => Except.ok sym
    | none =>
      if yahoo name ≠ "" then Except.ok (yahoo name)
      else if screener name ≠ "" then Except.ok (screener name)
      else
        match tokenSearch yahoo screener (pySplit name) with
        | some sym => Except.ok sym
        | none => Except.ok (generate_symbol_fallback name)

example : clean_numeric_value "1,200" = "1200" := rfl
example : clean_numeric_value "-" = "" := rfl
example : clean_numeric_value "a-" = "-" := rfl
example : clean_numeric_value (clean_numeric_value "a-") = "" := rfl
example : clean_metric_name "Sales +" = "Sales " := rfl
example : clean_metric_name "A+B" = "AB" := rfl
example : clean_metric_name "Net   Profit" = "Net Profit" := rfl
example : extractYear "Mar 2019" = some "2019" := rfl
example : extractYear "Metric" = none := rfl
example : infer_unit "Net Sales" "X" = "INR Crores" := rfl
example : infer_unit "EPS in Rs" "X" = "INR" := rfl
example : infer_unit "ROE %" "X" = "Percentage" := rfl
example : infer_unit "Debt to Equity" "X" = "INR Crores" := rfl
example : infer_unit "Working Capital Days" "X" = "Days" := rfl
example : infer_unit "Unknown Metric" "X" = "Number" := rfl
example : infer_unit "Current Price" "X" = "INR" := rfl
example : generate_symbol_fallback "123" = "" := rfl
example : generate_symbol_fallback "hindustan unilever ltd." = "HINDUST" := rfl
example :
    parse_financial_table ["", "2022", "2023"] [["Sales", "5"]]
      = [("Sales", [("2022", "5"), ("2023", "")])] := rfl
example :
    resolve_nse_symbol (fun _ => "") (fun _ => "") "123" = Except.ok "" := rfl
example :
    find_best_symbol (fun _ _ => none) (fun _ _ => none) "infy" = "INFY" := rfl
example :
    find_best_symbol (fun _ _ => none) (fun _ _ => none) "Infosys" = "INFY" := rfl

/-! ### Association-list lemmas (Python dict semantics) -/

lemma alGet_alSet_self {α : Type} (d : List (String × α)) (k : String) (v : α) :
    alGet (alSet d k v) k = some v := by
  induction d with
  | nil => simp [alSet, alGet]
  | cons p rest ih =>
    obtain ⟨k0, v0⟩ := p
    by_cases h : k0 = k <;> simp [alSet, alGet, h, ih]

lemma alGet_alSet_ne {α : Type} (d : List (String × α)) (k0 k : String) (v : α)
    (h : k0 ≠ k) : alGet (alSet d k0 v) k = alGet d k := by
  induction d with
  | nil => simp [alSet, alGet, h]
  | cons p rest ih =>
    obtain ⟨k1, v1⟩ := p
    by_cases h1 : k1 = k0
    · subst h1
      simp [alSet, alGet, h]
    · by_cases h2 : k1 = k <;> simp [alSet, alGet, h1, h2, ih, Ne.symm h]

lemma alGet_buildInnerFrom_notmem (vals : List String) (years : List String)
    (k : String) (hk : k ∉ years) :
    ∀ (j : Nat) (d : List (String × String)),
      alGet (buildInnerFrom vals j d years) k = alGet d k := by
  induction years with
  | nil => intro j d; rfl
  | cons y rest ih =>
    intro j d
    have hy : y ≠ k := fun h => hk (h ▸ List.mem_cons_self y rest)
    have hk2 : k ∉ rest := fun h => hk (List.mem_cons_of_mem y h)
    rw [buildInnerFrom, ih hk2, alGet_alSet_ne _ _ _ _ hy]

lemma alGet_buildInnerFrom_get (vals : List String) (years : List String)
    (hnd : years.Nodup) :
    ∀ (j : Nat) (d : List (String × String)) (i : Nat) (h : i < years.length),
      alGet (buildInnerFrom vals j d years) (years.get ⟨i, h⟩)
        = some (entryVal (j + i) vals) := by
  induction years with
  | nil => intro j d i h; exact absurd h (by simp)
  | cons y rest ih =>
    intro j d i h
    rcases List.nodup_cons.mp hnd with ⟨hy, hrest⟩
    cases i with
    | zero =>
      rw [show (y :: rest).get ⟨0, h⟩ = y from rfl, buildInnerFrom,
        alGet_buildInnerFrom_notmem vals rest y hy, alGet_alSet_self, Nat.add_zero]
    | succ i2 =>
      have h2 : i2 < rest.length := by simpa using Nat.lt_of_succ_lt_succ h
      rw [show (y :: rest).get ⟨i2 + 1, h⟩ = rest.get ⟨i2, h2⟩ from rfl,
        buildInnerFrom, ih hrest (j + 1) _ i2 h2,
        show j + 1 + i2 = j + (i2 + 1) from by omega]

lemma buildInner_get (years vals : List String) (hnd : years.Nodup)
    (i : Nat) (h : i < years.length) :
    alGet (buildInner years vals) (years.get ⟨i, h⟩) = some (entryVal i vals) := by
  rw [buildInner, alGet_buildInnerFrom_get vals years hnd 0 [] i h, Nat.zero_add]

/-! ### Numeric cleaning -/

lemma strMk_data (s : String) : String.mk s.data = s := rfl

lemma keepNumChar_not_ws (c : Char) (h : keepNumChar c = true) :
    isPyWhitespace c = false := by
  cases hw : isPyWhitespace c
  · rfl
  · simp only [isPyWhitespace, Bool.or_eq_true, beq_iff_eq] at hw
    rcases hw with ((((rfl | rfl) | rfl) | rfl) | rfl) | rfl <;>
      exact absurd h (by decide)

lemma keepNumChar_ne (c : Char) (h : keepNumChar c = true) (x : Char)
    (hx : keepNumChar x = false) : c ≠ x := by
  intro he
  rw [he, hx] at h
  exact Bool.false_ne_true h

lemma dropWhile_eq_self_of_none (p : Char → Bool) (l : List Char)
    (h : ∀ c ∈ l, p c = false) : l.dropWhile p = l := by
  cases l with
  | nil => rfl
  | cons a as => simp [List.dropWhile, h a (List.mem_cons_self a as)]

lemma pyStrip_eq_self (s : String) (h : ∀ c ∈ s.data, isPyWhitespace c = false) :
    pyStrip s = s := by
  rw [pyStrip, dropWhile_eq_self_of_none _ _ h,
    dropWhile_eq_self_of_none _ _ (fun c hc => h c (List.mem_reverse.mp hc)),
    List.reverse_reverse, strMk_data]

lemma replaceLoop_no_occ (o0 : Char) (old2 new : List Char) (l : List Char)
    (h : ∀ c ∈ l, c ≠ o0) : ∀ fuel, replaceLoop (o0 :: old2) new fuel l = l := by
  induction l with
  | nil => intro fuel; cases fuel <;> rfl
  | cons a rest ih =>
    intro fuel
    cases fuel with
    | zero => rfl
    | succ fuel2 =>
      have ha : (o0 == a) = false :=
        beq_eq_false_iff_ne.mpr fun he => (h a (List.mem_cons_self a rest)) he.symm
      rw [replaceLoop, stripPre?, if_neg (by simp [ha])]
      rw [ih (fun c hc => h c (List.mem_cons_of_mem a hc)) fuel2]

lemma strReplace_no_occ (s old new : String) (o0 : Char) (old2 : List Char)
    (hold : old.data = o0 :: old2) (h : ∀ c ∈ s.data, c ≠ o0) :
    strReplace s old new = s := by
  rw [strReplace, hold, replaceLoop_no_occ o0 old2 new.data s.data h, strMk_data]

/-- Every character of a non-sentinel `clean_numeric_value` result survives
the final regex filter, hence is a digit, `.` or `-`. -/
lemma clean_numeric_value_chars (v : String) :
    clean_numeric_value v = "" ∨
    ∀ c ∈ (clean_numeric_value v).data, keepNumChar c = true := by
  rw [clean_numeric_value]
  split
  · exact Or.inl rfl
  · refine Or.inr fun c hc => ?_
    exact (List.mem_filter.mp hc).2

/-- A nonempty string of digit/`.`/`-` characters other than `"-"` is a fixed
point of `clean_numeric_value`. -/
lemma clean_numeric_value_fixed (s : String)
    (hall : ∀ c ∈ s.data, keepNumChar c = true) (h0 : s ≠ "") (h1 : s ≠ "-") :
    clean_numeric_value s = s := by
  have hstrip : pyStrip s = s :=
    pyStrip_eq_self s (fun c hc => keepNumChar_not_ws c (hall c hc))
  have hNA : s ≠ "NA" := by
    intro he
    subst he
    exact absurd (hall 'N' (by decide)) (by decide)
  have hNslA : s ≠ "N/A" := by
    intro he
    subst he
    exact absurd (hall 'N' (by decide)) (by decide)
  rw [clean_numeric_value, if_neg (by simp [hstrip, h0, h1, hNA, hNslA]), hstrip,
    strReplace_no_occ s "," "" ',' [] rfl
      (fun c hc => keepNumChar_ne c (hall c hc) ',' (by decide)),
    strReplace_no_occ s "%" "" '%' [] rfl
      (fun c hc => keepNumChar_ne c (hall c hc) '%' (by decide)),
    strReplace_no_occ s rupeeGarbled "" '‚' ['Ç', 'π'] rfl
      (fun c hc => keepNumChar_ne c (hall c hc) '‚' (by decide)),
    strReplace_no_occ s "$" "" '$' [] rfl
      (fun c hc => keepNumChar_ne c (hall c hc) '$' (by decide)),
    List.filter_eq_self.mpr hall, strMk_data]

/-- C2 (counterexample): `clean_numeric_value` is not idempotent: cleaning
`"a-"` yields `"-"`, and cleaning that again yields `""`. -/
theorem clean_numeric_value_not_idempotent :
    clean_numeric_value (clean_numeric_value "a-") ≠ clean_numeric_value "a-" := by
  decide

/-- C2 (amended): `clean_numeric_value` is idempotent on every input whose
first cleaning does not produce the bare string `"-"` (the one cleaned form
that the sentinel check maps on a second pass to `""`); cleaning an
already-clean numeric string returns it unchanged, and `"-"`, `"NA"`,
`"N/A"` and `""` all clean to the empty string, not `"0"`. -/
theorem clean_numeric_value_idempotent_amended (v : String)
    (h : clean_numeric_value v ≠ "-") :
    clean_numeric_value (clean_numeric_value v) = clean_numeric_value v ∧
    clean_numeric_value "-" = "" ∧ clean_numeric_value "NA" = "" ∧
    clean_numeric_value "N/A" = "" ∧ clean_numeric_value "" = "" := by
  refine ⟨?_, rfl, rfl, rfl, rfl⟩
  by_cases h0 : clean_numeric_value v = ""
  · rw [h0]
    rfl
  · rcases clean_numeric_value_chars v with he | hall
    · exact absurd he h0
    · exact clean_numeric_value_fixed _ hall h0 h

theorem clean_numeric_value_idempotent_witness :
    clean_numeric_value (clean_numeric_value "12.5") = clean_numeric_value "12.5" ∧
    clean_numeric_value "-" = "" ∧ clean_numeric_value "NA" = "" ∧
    clean_numeric_value "N/A" = "" ∧ clean_numeric_value "" = "" :=
  clean_numeric_value_idempotent_amended "12.5" (by decide)

/-! ### Metric-name cleaning -/

lemma data_strMk (l : List Char) : (String.mk l).data = l := rfl

lemma replaceLoop_single (c : Char) (l : List Char) :
    ∀ fuel, l.length ≤ fuel →
      replaceLoop [c] [] fuel l = l.filter (fun a => !(a == c)) := by
  induction l with
  | nil => intro fuel _; cases fuel <;> rfl
  | cons a rest ih =>
    intro fuel hf
    cases fuel with
    | zero => exact absurd hf (by simp)
    | succ f2 =>
      have hrest : rest.length ≤ f2 := by
        simp only [List.length_cons] at hf
        omega
      have hsp : stripPre? [c] (a :: rest) = if c == a then some rest else none := rfl
      rw [replaceLoop, hsp]
      cases hca : c == a
      · have hac : (a == c) = false := by
          rw [beq_eq_false_iff_ne] at hca ⊢
          exact fun h => hca h.symm
        simp only [Bool.false_eq_true, if_false, List.filter_cons, hac,
          Bool.not_false, if_true, ih f2 hrest]
      · have hac : (a == c) = true := by
          rw [beq_iff_eq] at hca ⊢
          exact hca.symm
        simp only [if_true, List.isEmpty_cons, List.nil_append, List.filter_cons,
          hac, Bool.not_true, Bool.false_eq_true, if_false, ih f2 hrest]

lemma strReplace_single (s old : String) (c : Char) (hold : old.data = [c]) :
    strReplace s old "" = String.mk (s.data.filter (fun a => !(a == c))) := by
  rw [strReplace, hold, show ("" : String).data = [] from rfl,
    replaceLoop_single c s.data s.data.length (le_refl _)]

lemma mem_collapseWsAux (l : List Char) :
    ∀ (b : Bool) (c : Char), c ∈ collapseWsAux b l → c = ' ' ∨ c ∈ l := by
  induction l with
  | nil => intro b c h; simp [collapseWsAux] at h
  | cons a rest ih =>
    intro b c h
    by_cases hws : isPyWhitespace a = true
    · cases b
      · rw [collapseWsAux, if_pos hws] at h
        simp only [Bool.false_eq_true, if_false, List.mem_cons] at h
        rcases h with rfl | h2
        · exact Or.inl rfl
        · rcases ih true c h2 with h3 | h3
          · exact Or.inl h3
          · exact Or.inr (List.mem_cons_of_mem a h3)
      · rw [collapseWsAux, if_pos hws, if_pos rfl] at h
        rcases ih true c h with h3 | h3
        · exact Or.inl h3
        · exact Or.inr (List.mem_cons_of_mem a h3)
    · rw [collapseWsAux, if_neg hws] at h
      rcases List.mem_cons.mp h with rfl | h2
      · exact Or.inr (List.mem_cons_self c rest)
      · rcases ih false c h2 with h3 | h3
        · exact Or.inl h3
        · exact Or.inr (List.mem_cons_of_mem a h3)

/-- C9 (counterexample): the trailing-marker strip leaves the whitespace that
preceded the marker, so `"Sales +"` cleans to `"Sales "` (trailing space),
not `"Sales"`; and the `replace` calls delete `+` everywhere, not only at the
end: `"A+B"` cleans to `"AB"`. -/
theorem clean_metric_name_counterexample :
    clean_metric_name "Sales +" = "Sales " ∧
    clean_metric_name "Sales +" ≠ "Sales" ∧
    clean_metric_name "A+B" = "AB" := by
  exact ⟨rfl, by decide, rfl⟩

/-- C9 (amended): `clean_metric_name` removes every occurrence of `+`, `*`,
`#` anywhere in the name (not only trailing markers), trims the original
ends, and collapses each whitespace run to a single space; removing a
trailing marker can leave one residual trailing space, e.g.
`"Sales +" ↦ "Sales "`. -/
theorem clean_metric_name_amended (m : String) :
    (∀ c ∈ (clean_metric_name m).data, c ≠ '+' ∧ c ≠ '*' ∧ c ≠ '#') ∧
    clean_metric_name "Sales +" = "Sales " ∧
    clean_metric_name "A+B" = "AB" ∧
    clean_metric_name "Net   Profit  #" = "Net Profit " := by
  refine ⟨?_, rfl, rfl, rfl⟩
  intro c hc
  by_cases hm : m = ""
  · rw [hm] at hc
    simp [clean_metric_name] at hc
  · rw [clean_metric_name, if_neg hm, data_strMk] at hc
    rcases mem_collapseWsAux _ false c hc with rfl | hc3
    · exact ⟨by decide, by decide, by decide⟩
    · rw [strReplace_single _ _ '#' rfl, data_strMk] at hc3
      obtain ⟨hc4, hhash⟩ := List.mem_filter.mp hc3
      rw [strReplace_single _ _ '*' rfl, data_strMk] at hc4
      obtain ⟨hc5, hstar⟩ := List.mem_filter.mp hc4
      rw [strReplace_single _ _ '+' rfl, data_strMk] at hc5
      obtain ⟨_, hplus⟩ := List.mem_filter.mp hc5
      refine ⟨?_, ?_, ?_⟩
      · simpa using hplus
      · simpa using hstar
      · simpa using hhash

theorem clean_metric_name_amended_witness :
    ('A' : Char) ≠ '+' ∧ ('A' : Char) ≠ '*' ∧ ('A' : Char) ≠ '#' :=
  (clean_metric_name_amended "A+B").1 'A' (by decide)

/-! ### Symbol resolution -/

lemma uint32_le_toNat (a b : UInt32) : a ≤ b ↔ a.toNat ≤ b.toNat := by
  rw [UInt32.le_def, BitVec.le_def]
  exact Iff.rfl

lemma toUpper_upper_of_alpha (c : Char) (h : c.isAlpha = true) :
    c.toUpper.isUpper = true ∧ c.toUpper.isAlpha = true := by
  simp only [Char.isAlpha, Char.isUpper, Char.isLower, Bool.or_eq_true,
    Bool.and_eq_true, decide_eq_true_eq] at h
  rcases h with ⟨h1, h2⟩ | ⟨h1, h2⟩
  · have hn1 : 65 ≤ c.val.toNat := by
      have h := (uint32_le_toNat _ _).mp h1
      rw [show (65 : UInt32).toNat = 65 from rfl] at h
      exact h
    have hn2 : c.val.toNat ≤ 90 := by
      have h := (uint32_le_toNat _ _).mp h2
      rw [show (90 : UInt32).toNat = 90 from rfl] at h
      exact h
    have hne : ¬(c.toNat ≥ 97 ∧ c.toNat ≤ 122) := by
      rw [Char.toNat]
      omega
    rw [Char.toUpper]
    simp only [if_neg hne]
    simp only [Char.isUpper, Char.isAlpha, Char.isLower, Bool.or_eq_true,
      Bool.and_eq_true, decide_eq_true_eq, ge_iff_le, uint32_le_toNat]
    refine ⟨⟨?_, ?_⟩, Or.inl ⟨?_, ?_⟩⟩ <;>
      simp only [show (65 : UInt32).toNat = 65 from rfl,
        show (90 : UInt32).toNat = 90 from rfl] <;> omega
  · have hn1 : (97 : Nat) ≤ c.toNat := by
      have h := (uint32_le_toNat _ _).mp h1
      rw [show (97 : UInt32).toNat = 97 from rfl] at h
      exact h
    have hn2 : c.toNat ≤ 122 := by
      have h := (uint32_le_toNat _ _).mp h2
      rw [show (122 : UInt32).toNat = 122 from rfl] at h
      exact h
    have hcond : c.toNat ≥ 97 ∧ c.toNat ≤ 122 := ⟨hn1, hn2⟩
    rw [Char.toUpper]
    simp only [if_pos hcond]
    have hvalid : (c.toNat - 32).isValidChar := Or.inl (by omega)
    have hofval : (Char.ofNat (c.toNat - 32)).val.toNat = c.toNat - 32 := by
      rw [Char.ofNat, dif_pos hvalid]
      simp [Char.ofNatAux, UInt32.toNat]
    simp only [Char.isUpper, Char.isAlpha, Char.isLower, Bool.or_eq_true,
      Bool.and_eq_true, decide_eq_true_eq, ge_iff_le, uint32_le_toNat]
    refine ⟨⟨?_, ?_⟩, Or.inl ⟨?_, ?_⟩⟩ <;>
      simp only [hofval, show (65 : UInt32).toNat = 65 from rfl,
        show (90 : UInt32).toNat = 90 from rfl] <;> omega

lemma tokenSearch_none (yahoo screener : String → String)
    (hfail : ∀ q, yahoo q = "" ∧ screener q = "") :
    ∀ ts, tokenSearch yahoo screener ts = none := by
  intro ts
  induction ts with
  | nil => rfl
  | cons t rest ih =>
    rw [tokenSearch]
    simp [(hfail t).1, (hfail t).2, ih]

/-- Shape of `generate_symbol_fallback`: at most 7 characters, all uppercase
ASCII letters, and nonempty exactly when the input has an ASCII letter. -/
lemma generate_symbol_fallback_spec (s : String) :
    (generate_symbol_fallback s).length ≤ 7 ∧
    (∀ c ∈ (generate_symbol_fallback s).data, c.isUpper = true ∧ c.isAlpha = true) ∧
    (generate_symbol_fallback s ≠ "" ↔ ∃ c ∈ s.data, c.isAlpha = true) := by
  refine ⟨?_, ?_, ?_⟩
  · show (((s.data.filter Char.isAlpha).map Char.toUpper).take 7).length ≤ 7
    simp only [List.length_take]
    omega
  · intro c hc
    rw [generate_symbol_fallback, data_strMk] at hc
    have hc2 := List.take_subset 7 _ hc
    obtain ⟨c0, hc0, rfl⟩ := List.mem_map.mp hc2
    exact toUpper_upper_of_alpha c0 (List.mem_filter.mp hc0).2
  · constructor
    · intro hne
      by_contra hno
      push_neg at hno
      have hf : s.data.filter Char.isAlpha = [] :=
        List.filter_eq_nil.mpr (fun c hc => by simp [hno c hc])
      exact hne (by rw [generate_symbol_fallback, hf]; rfl)
    · rintro ⟨c, hc, hca⟩ heq
      have hdata : ((s.data.filter Char.isAlpha).map Char.toUpper).take 7 = [] :=
        congrArg String.data heq
      rcases List.take_eq_nil_iff.mp hdata with h7 | hmap
      · exact absurd h7 (by decide)
      · rw [List.map_eq_nil] at hmap
        rw [List.filter_eq_nil] at hmap
        exact hmap c hc hca

/-- C3 (counterexample): on the letterless input `"123"` every remote lookup
fails and the fallback is the EMPTY string, so `resolve_nse_symbol` returns
`Except.ok ""` — not a non-empty string; and on `"ambuja"` the static
common-pattern table answers `"AMBUJACEM"`, which is not the fallback
`"AMBUJA"`. -/
theorem resolve_fallback_counterexample :
    resolve_nse_symbol (fun _ => "") (fun _ => "") "123" = Except.ok "" ∧
    generate_symbol_fallback "123" = "" ∧
    resolve_nse_symbol (fun _ => "") (fun _ => "") "ambuja" = Except.ok "AMBUJACEM" ∧
    generate_symbol_fallback "ambuja" = "AMBUJA" ∧
    ("AMBUJACEM" : String) ≠ "AMBUJA" := by
  exact ⟨rfl, rfl, rfl, rfl, by decide⟩

/-- C3 (amended): for every non-blank input whose trimmed, lower-cased form
is not a key of the static common-pattern table, if all remote lookups fail
then `resolve_nse_symbol` returns `generate_symbol_fallback` of that form: a
string of at most 7 uppercase ASCII letters, which is non-empty iff the
input contains at least one ASCII letter (a letterless input yields `""`). -/
theorem resolve_fallback_amended (yahoo screener : String → String) (input : String)
    (hfail : ∀ q, yahoo q = "" ∧ screener q = "")
    (hne : pyStrip input ≠ "")
    (hnc : alGet common_patterns (strLower (pyStrip input)) = none) :
    resolve_nse_symbol yahoo screener input
      = Except.ok (generate_symbol_fallback (strLower (pyStrip input))) ∧
    (generate_symbol_fallback (strLower (pyStrip input))).length ≤ 7 ∧
    (∀ c ∈ (generate_symbol_fallback (strLower (pyStrip input))).data,
      c.isUpper = true ∧ c.isAlpha = true) ∧
    (generate_symbol_fallback (strLower (pyStrip input)) ≠ "" ↔
      ∃ c ∈ (strLower (pyStrip input)).data, c.isAlpha = true) := by
  obtain ⟨hlen, hupper, hiff⟩ := generate_symbol_fallback_spec (strLower (pyStrip input))
  refine ⟨?_, hlen, hupper, hiff⟩
  have h0 : ¬(input = "" ∨ pyStrip input = "") := by
    rintro (rfl | h2)
    · exact hne rfl
    · exact hne h2
  rw [resolve_nse_symbol, if_neg h0]
  simp [hnc, hfail, tokenSearch_none yahoo screener hfail]

theorem resolve_fallback_amended_witness :
    resolve_nse_symbol (fun _ => "") (fun _ => "") "Apollo Hosp."
      = Except.ok (generate_symbol_fallback (strLower (pyStrip "Apollo Hosp."))) ∧
    (generate_symbol_fallback (strLower (pyStrip "Apollo Hosp."))).length ≤ 7 ∧
    (∀ c ∈ (generate_symbol_fallback (strLower (pyStrip "Apollo Hosp."))).data,
      c.isUpper = true ∧ c.isAlpha = true) ∧
    (generate_symbol_fallback (strLower (pyStrip "Apollo Hosp.")) ≠ "" ↔
      ∃ c ∈ (strLower (pyStrip "Apollo Hosp.")).data, c.isAlpha = true) :=
  resolve_fallback_amended (fun _ => "") (fun _ => "") "Apollo Hosp."
    (fun _ => ⟨rfl, rfl⟩) (by decide) (by decide)

/-- C4 (confirmed): `resolve_nse_symbol` signals the invalid-input error
exactly on empty or whitespace-only input; on every other input — whatever
the two remote lookups return — it terminates with `Except.ok` of some
string. -/
theorem resolve_nse_symbol_error_iff (yahoo screener : String → String)
    (input : String) :
    (pyStrip input = "" →
      resolve_nse_symbol yahoo screener input
        = Except.error "Company name cannot be empty") ∧
    (pyStrip input ≠ "" →
      ∃ out, resolve_nse_symbol yahoo screener input = Except.ok out) := by
  constructor
  · intro h
    rw [resolve_nse_symbol, if_pos (Or.inr h)]
  · intro h
    have h0 : ¬(input = "" ∨ pyStrip input = "") := by
      rintro (rfl | h2)
      · exact h rfl
      · exact h h2
    rw [resolve_nse_symbol, if_neg h0]
    dsimp only
    repeat' first
      | exact ⟨_, rfl⟩
      | split

theorem resolve_nse_symbol_error_iff_witness :
    resolve_nse_symbol (fun _ => "") (fun _ => "") "   "
      = Except.error "Company name cannot be empty" ∧
    ∃ out, resolve_nse_symbol (fun _ => "") (fun _ => "") "tcs" = Except.ok out :=
  ⟨(resolve_nse_symbol_error_iff (fun _ => "") (fun _ => "") "   ").1 (by decide),
   (resolve_nse_symbol_error_iff (fun _ => "") (fun _ => "") "tcs").2 (by decide)⟩

/-! ### Unit inference -/

lemma infer_unit_eq_buckets (name s : String) :
    infer_unit name s = inferUnitByBuckets name := by
  simp only [infer_unit, inferUnitByBuckets, unitBuckets, List.find?]
  cases h1 : monetaryKw.any (fun w => strContains (strLower (clean_metric_name name)) w) <;>
    cases h2 : perShareKw.any (fun w => strContains (strLower (clean_metric_name name)) w) <;>
    cases h3 : percentKw.any (fun w => strContains (strLower (clean_metric_name name)) w) <;>
    cases h4 : ratioKw.any (fun w => strContains (strLower (clean_metric_name name)) w) <;>
    cases h5 : daysKw.any (fun w => strContains (strLower (clean_metric_name name)) w) <;>
    cases h6 : priceKw.any (fun w => strContains (strLower (clean_metric_name name)) w) <;>
    simp [h1, h2, h3, h4, h5, h6]

/-- C1 (counterexample): "Debt to Equity" contains the monetary keyword
"equity", and the monetary bucket has the highest priority, so `infer_unit`
returns "INR Crores" — not "Ratio" as the claim states. -/
theorem infer_unit_counterexample :
    infer_unit "Debt to Equity" "Ratios" = "INR Crores" ∧
    ("INR Crores" : String) ≠ "Ratio" := by
  exact ⟨rfl, by decide⟩

/-- C1 (amended): `infer_unit` classifies by keyword membership with first
match winning in the fixed priority order (monetary, per-share, percentage,
ratio, days, price, default); on the claim's sample inputs it yields the
claimed units except that "Debt to Equity" resolves to "INR Crores" (its
"equity" substring matches the top-priority monetary bucket before the
ratio bucket is reached). -/
theorem infer_unit_buckets_amended :
    ∀ s : String,
      infer_unit "Net Sales" s = "INR Crores" ∧
      infer_unit "EPS in Rs" s = "INR" ∧
      infer_unit "ROE %" s = "Percentage" ∧
      infer_unit "Debt to Equity" s = "INR Crores" ∧
      infer_unit "Working Capital Days" s = "Days" ∧
      infer_unit "Unknown Metric" s = "Number" ∧
      ∀ metric_name, infer_unit metric_name s = inferUnitByBuckets metric_name := by
  intro s
  exact ⟨rfl, rfl, rfl, rfl, rfl, rfl, fun name => infer_unit_eq_buckets name s⟩

/-- C5 (counterexample): with 10 year columns in the header, the 6 most
recent years 2019–2024 are retained, but the value stored for 2019 is the
row's FIRST data cell "100" (the 2015 column), not the cell "104" from the
2019 column — the retained year labels are truncated from the right while
the values keep being read from the left. -/
theorem parse_truncation_counterexample :
    parse_financial_table
        ["Metric", "Mar 2015", "Mar 2016", "Mar 2017", "Mar 2018", "Mar 2019",
         "Mar 2020", "Mar 2021", "Mar 2022", "Mar 2023", "Mar 2024"]
        [["Sales", "100", "101", "102", "103", "104", "105", "106", "107", "108", "109"]]
      = [("Sales",
          [("2019", "100"), ("2020", "101"), ("2021", "102"), ("2022", "103"),
           ("2023", "104"), ("2024", "105")])] ∧
    ("100" : String) ≠ "104" := by
  exact ⟨rfl, by decide⟩

/-- C5 (amended): `parse_financial_table` retains the `MAX_YEARS = 6`
rightmost extracted year labels, a parsed single-row table keys exactly the
metric to the dict built over those retained years, and the value stored for
the `i`-th retained year is the cleaned `i`-th data cell of the row
(positional from the left) — which is that year's own column only when no
columns were truncated. -/
theorem parse_truncation_amended (headers : List String) (metric c1 : String)
    (rest : List String) (hnd : (retainedYears headers).Nodup) :
    retainedYears headers = takeLast MAX_YEARS (extractedYears headers) ∧
    parse_financial_table headers [metric :: c1 :: rest]
      = [(metric, buildInner (retainedYears headers) (c1 :: rest))] ∧
    ∀ (i : Nat) (h : i < (retainedYears headers).length),
      alGet (buildInner (retainedYears headers) (c1 :: rest))
          ((retainedYears headers).get ⟨i, h⟩)
        = some (entryVal i (c1 :: rest)) := by
  refine ⟨rfl, rfl, ?_⟩
  intro i h
  exact buildInner_get _ _ hnd i h

theorem parse_truncation_amended_witness :
    (retainedYears ["", "2022", "2023"]).Nodup ∧
    parse_financial_table ["", "2022", "2023"] [["M", "7", "8"]]
      = [("M", buildInner (retainedYears ["", "2022", "2023"]) ["7", "8"])] :=
  ⟨by decide, (parse_truncation_amended ["", "2022", "2023"] "M" "7" ["8"] (by decide)).2.1⟩

/-- C6 (counterexample): for a row with fewer cells than the retained year
axis, the trailing year IS present as a key of the metric's mapping, bound to
the empty string — it is not absent as the claim states. -/
theorem parse_short_row_counterexample :
    parse_financial_table ["", "2022", "2023"] [["Sales", "5"]]
      = [("Sales", [("2022", "5"), ("2023", "")])] ∧
    alGet [("2022", "5"), ("2023", "")] "2023" = some "" := by
  exact ⟨rfl, rfl⟩

/-- C6 (amended): for a row with fewer data cells than the retained year
axis, every trailing retained year is present in the metric's year-to-value
mapping with value `""` (the empty values are then dropped downstream by
`create_normalized_rows`, so they still produce no records). -/
theorem parse_short_row_amended (headers : List String) (metric c1 : String)
    (rest : List String) (hnd : (retainedYears headers).Nodup)
    (i : Nat) (h : i < (retainedYears headers).length)
    (hshort : (c1 :: rest).length ≤ i) :
    parse_financial_table headers [metric :: c1 :: rest]
      = [(metric, buildInner (retainedYears headers) (c1 :: rest))] ∧
    alGet (buildInner (retainedYears headers) (c1 :: rest))
        ((retainedYears headers).get ⟨i, h⟩) = some "" := by
  refine ⟨rfl, ?_⟩
  rw [buildInner_get _ _ hnd i h, entryVal, if_neg (by omega)]

theorem parse_short_row_amended_witness :
    alGet (buildInner (retainedYears ["", "2022", "2023"]) ["7"])
        ((retainedYears ["", "2022", "2023"]).get
          ⟨1, (by decide : 1 < (retainedYears ["", "2022", "2023"]).length)⟩)
      = some "" :=
  (parse_short_row_amended ["", "2022", "2023"] "M" "7" [] (by decide) 1 (by decide)
    (by decide)).2

/-! ### Dictionary lookup (`find_best_symbol`) -/

/-- C7 (confirmed): for every entry of the static company dictionary,
resolving the name or the symbol (in any upper/lower-casing) returns the
canonical symbol, via exact key match first and then matching the mapped
symbol itself; the two fuzzy-match oracles are never consulted. -/
theorem find_best_symbol_dictionary
    (closeToKeys closeToVals : String → List String → Option String)
    (name symbol s : String) (hmem : (name, symbol) ∈ company_symbols)
    (hs : strUpper s = name ∨ strUpper s = strUpper symbol) :
    find_best_symbol closeToKeys closeToVals s = symbol := by
  simp only [company_symbols, List.mem_cons, Prod.mk.injEq,
    List.not_mem_nil, or_false] at hmem
  rcases hmem with ⟨rfl, rfl⟩ | ⟨rfl, rfl⟩ | ⟨rfl, rfl⟩ | ⟨rfl, rfl⟩ |
      ⟨rfl, rfl⟩ | ⟨rfl, rfl⟩ | ⟨rfl, rfl⟩ <;>
    rcases hs with h | h <;>
    · simp only [find_best_symbol]
      rw [h]
      rfl

theorem find_best_symbol_dictionary_witness :
    find_best_symbol (fun _ _ => none) (fun _ _ => none) "hdfcbank" = "HDFCBANK" :=
  find_best_symbol_dictionary (fun _ _ => none) (fun _ _ => none)
    "HDFC BANK" "HDFCBANK" "hdfcbank" (by decide) (Or.inr (by decide))

/-! ### Normalized rows -/

/-- Every emitted record carries a year from the hardcoded `all_years` list,
a non-empty value, and the constant source tag. -/
lemma create_rows_mem (company symbol : String)
    (tables : List (String × List (String × List (String × List (String × String)))))
    (r : NormalizedRecord) (hr : r ∈ create_normalized_rows company symbol tables) :
    (∃ y ∈ all_years, r.Year = natOfDigits y.data) ∧ r.Value ≠ "" ∧ r.Source = SOURCE := by
  simp only [create_normalized_rows, List.mem_flatMap, List.mem_filterMap] at hr
  obtain ⟨st, hst, sec, hsec, met, hmet, year, hyear, hopt⟩ := hr
  split at hopt
  next hcond =>
    injection hopt with hopt2
    subst hopt2
    exact ⟨⟨year, hyear, rfl⟩, hcond, rfl⟩
  next => exact absurd hopt (by simp)

/-- C8 (confirmed): flattening the single raw row
`["Sales", "1,200", "-", "980"]` against the year axis 2022–2024 yields
exactly the 2022 record (value `"1200"`) and the 2024 record (value
`"980"`), no 2023 record; and in general `create_normalized_rows` never
emits a record whose `Value` is the empty string. -/
theorem create_rows_drops_empty :
    create_normalized_rows "C" "S"
        [("Profit & Loss", [("Summary",
          parse_financial_table ["Metric", "2022", "2023", "2024"]
            [["Sales", "1,200", "-", "980"]])])]
      = [⟨"C", "S", "Profit & Loss", "Summary", "Sales", 2022, "1200",
          "INR Crores", "Screener.in"⟩,
         ⟨"C", "S", "Profit & Loss", "Summary", "Sales", 2024, "980",
          "INR Crores", "Screener.in"⟩] ∧
    ∀ (company symbol : String)
      (tables : List (String × List (String × List (String × List (String × String)))))
      (r : NormalizedRecord),
      r ∈ create_normalized_rows company symbol tables → r.Value ≠ "" := by
  constructor
  · rfl
  · intro company symbol tables r hr
    exact (create_rows_mem company symbol tables r hr).2.1

theorem create_rows_drops_empty_witness :
    (⟨"C", "S", "Profit & Loss", "Summary", "Sales", 2022, "1200",
      "INR Crores", "Screener.in"⟩ : NormalizedRecord).Value ≠ "" :=
  create_rows_drops_empty.2 "C" "S"
    [("Profit & Loss", [("Summary",
      parse_financial_table ["Metric", "2022", "2023", "2024"]
        [["Sales", "1,200", "-", "980"]])])] _ (by decide)

/-- C10 (confirmed): every record emitted by `create_normalized_rows` has an
integer `Year` between 2019 and 2025 inclusive (years outside the hardcoded
`all_years` range are never looked up, hence never emitted), a non-empty
`Value`, and `Source` equal to the constant `"Screener.in"`. -/
theorem create_normalized_rows_invariant (company symbol : String)
    (tables : List (String × List (String × List (String × List (String × String)))))
    (r : NormalizedRecord) (hr : r ∈ create_normalized_rows company symbol tables) :
    (2019 ≤ r.Year ∧ r.Year ≤ 2025) ∧ r.Value ≠ "" ∧ r.Source = "Screener.in" := by
  obtain ⟨⟨y, hy, hYear⟩, hval, hsrc⟩ := create_rows_mem company symbol tables r hr
  refine ⟨?_, hval, hsrc⟩
  simp only [all_years, List.mem_cons, List.not_mem_nil, or_false] at hy
  rcases hy with rfl | rfl | rfl | rfl | rfl | rfl | rfl <;> rw [hYear] <;>
    exact ⟨by decide, by decide⟩

theorem create_normalized_rows_invariant_witness :
    (2019 ≤ (⟨"C", "S", "Profit & Loss", "Summary", "Sales", 2022, "1200",
        "INR Crores", "Screener.in"⟩ : NormalizedRecord).Year ∧
      (⟨"C", "S", "Profit & Loss", "Summary", "Sales", 2022, "1200",
        "INR Crores", "Screener.in"⟩ : NormalizedRecord).Year ≤ 2025) ∧
    (⟨"C", "S", "Profit & Loss", "Summary", "Sales", 2022, "1200",
      "INR Crores", "Screener.in"⟩ : NormalizedRecord).Value ≠ "" ∧
    (⟨"C", "S", "Profit & Loss", "Summary", "Sales", 2022, "1200",
      "INR Crores", "Screener.in"⟩ : NormalizedRecord).Source = "Screener.in" :=
  create_normalized_rows_invariant "C" "S"
    [("Profit & Loss", [("Summary",
      parse_financial_table ["Metric", "2022", "2023", "2024"]
        [["Sales", "1,200", "-", "980"]])])] _ (by decide)
